import Mathlib

/-!
Verification development for the setup-kubesolo GitHub Action.

The repository has two variants of the same action: a TypeScript variant
(src/main.ts and src/cleanup.ts, invoked as a main run plus a post-run hook)
and a bash composite variant (setup.sh, no cleanup).  The external behavior of
both programs is the ordered sequence of side effects they perform: toolkit
state saves, external command invocations (whose exit codes come from the
host), filesystem accesses and renames, action outputs, and environment
exports.  We embed the programs as pure functions from an oracle `World`
(exit codes of successive commands, captured stdout of the two
output-capturing commands, and per-iteration readiness observations) and a
system state `Sys` (a filesystem modelled as a predicate on paths, a command
counter, and the emitted event trace) to a final state plus an optional hard
error, mirroring the control flow of the source line by line.
-/

namespace SetupKubesolo

/-- Observable side effects of the action processes. `cmd` is an
`exec.exec` invocation, `access` an `fs.access` probe, `mv` the
`sudo mv src dst` rename, `download` the `curl` fetch of a release artifact,
`output`/`exportVar` the toolkit output and environment publication,
`saveState` the toolkit state save, `diagnostics` the entry into
`showDiagnostics`, and `warn`/`info` the two logging levels. -/
inductive Ev where
  | saveState (key val : String)
  | cmd (c : String)
  | access (p : String)
  | mv (src dst : String)
  | download (url : String)
  | output (key val : String)
  | exportVar (key val : String)
  | sleep (ms : Nat)
  | diagnostics
  | warn (m : String)
  | info (m : String)
  deriving DecidableEq, Repr

/-- System state threaded through a process invocation: the index of the next
external command (used to look up its exit code in the oracle), the set of
paths that currently exist on disk, and the trace of emitted events. -/
structure Sys where
  k : Nat
  fs : String → Bool
  evs : List Ev

/-- The environment oracle: exit code of the n-th external command, the
captured stdout of the latest-version lookup and of `uname -m`, and the
per-iteration readiness observations consumed by the wait loop. -/
structure IterObs where
  isActiveCode : Int
  portCode : Int
  credOk : Bool
  kubectlCode : Int
  readyCode : Int
  deriving DecidableEq, Repr

structure World where
  codes : Nat → Int
  latestOut : String
  unameOut : String
  poll : List (Nat × IterObs)

def sysInit (fs : String → Bool) : Sys := ⟨0, fs, []⟩

/-! ### Effect primitives -/

/-- Run an external command, consuming its exit code from the oracle. -/
def runCmd (w : World) (c : String) (s : Sys) : Int × Sys :=
  (w.codes s.k, { s with k := s.k + 1, evs := s.evs ++ [Ev.cmd c] })

/-- `exec.exec` with `ignoreReturnCode: true`: the exit code is discarded. -/
def execIgnored (w : World) (c : String) (s : Sys) : Sys :=
  (runCmd w c s).2

/-- `exec.exec` without `ignoreReturnCode`: a nonzero exit code throws. -/
def execStrict (w : World) (c : String) (s : Sys) : Sys × Option String :=
  let (code, s1) := runCmd w c s
  (s1, if code = 0 then none else some ("exec failed: " ++ c))

def infoEv (m : String) (s : Sys) : Sys := { s with evs := s.evs ++ [Ev.info m] }

def warnEv (m : String) (s : Sys) : Sys := { s with evs := s.evs ++ [Ev.warn m] }

def accessEv (p : String) (s : Sys) : Sys := { s with evs := s.evs ++ [Ev.access p] }

def sleepEv (ms : Nat) (s : Sys) : Sys := { s with evs := s.evs ++ [Ev.sleep ms] }

def outputEv (key val : String) (s : Sys) : Sys :=
  { s with evs := s.evs ++ [Ev.output key val] }

def exportEv (key val : String) (s : Sys) : Sys :=
  { s with evs := s.evs ++ [Ev.exportVar key val] }

def saveStateEv (key val : String) (s : Sys) : Sys :=
  { s with evs := s.evs ++ [Ev.saveState key val] }

/-- `sudo mv src dst` (invoked only after `fs.access` confirmed `src`
exists, so modelled as succeeding): `dst` now holds what `src` held, `src`
is gone.  Consumes an exit code like every external command. -/
def mvFile (_w : World) (src dst : String) (s : Sys) : Sys :=
  { s with
    k := s.k + 1
    evs := s.evs ++ [Ev.mv src dst]
    fs := fun p => if p = dst then s.fs src else if p = src then false else s.fs p }

/-- `sudo rm -rf ...` over a fixed argument list, as a single command. -/
def rmPaths (w : World) (c : String) (ps : List String) (s : Sys) : Sys :=
  let s1 := execIgnored w c s
  { s1 with fs := fun p => if ps.contains p then false else s.fs p }

/-! ### Fixed names and paths (src/main.ts and src/cleanup.ts) -/

def runtimeServices : List String := ["docker.socket", "docker", "containerd", "podman"]

def runtimeBinaries : List String :=
  ["docker", "dockerd", "containerd", "containerd-shim",
   "containerd-shim-runc-v2", "runc", "podman"]

def origPath (b : String) : String := "/usr/bin/" ++ b

def bakPath (b : String) : String := origPath b ++ ".bak"

def socketPaths : List String :=
  ["/var/run/docker*", "/var/run/containerd", "/run/containerd", "/run/docker*"]

def rmSocketsCmd : String :=
  "sudo rm -rf /var/run/docker* /var/run/containerd /run/containerd /run/docker*"

def kubeconfigPath : String := "/var/lib/kubesolo/pki/admin/admin.kubeconfig"

/-! ### disableContainerRuntimes (src/main.ts lines 36-71) -/

/-- One iteration of the service loop: stop then mask, both ignoring the
return code (src/main.ts lines 44-47). -/
def stopMaskStep (w : World) (s : Sys) (svc : String) : Sys :=
  execIgnored w ("sudo systemctl mask " ++ svc)
    (execIgnored w ("sudo systemctl stop " ++ svc) s)

/-- One iteration of the binary backup loop (src/main.ts lines 51-60):
`fs.access` the original path; if it exists, rename it to the `.bak` path;
if the access throws (binary absent) the catch block skips the binary. -/
def backupBinaryStep (w : World) (s : Sys) (b : String) : Sys :=
  let s1 := accessEv (origPath b) s
  if s.fs (origPath b) then
    infoEv ("  Backed up " ++ b) (mvFile w (origPath b) (bakPath b) s1)
  else s1

/-- src/main.ts lines 36-71.  Every command ignores its return code and the
only throwing call (`fs.access`) is caught per binary, so the surrounding
try/catch never fires and the operation is total. -/
def disableContainerRuntimes (w : World) (s : Sys) : Sys :=
  let s1 := infoEv "Stopping container runtime services..." s
  let s2 := runtimeServices.foldl (stopMaskStep w) s1
  let s3 := runtimeBinaries.foldl (backupBinaryStep w) s2
  let s4 := rmPaths w rmSocketsCmd socketPaths s3
  infoEv "✓ Container runtimes disabled" s4

/-! ### Architecture mapping -/

/-- The `switch (arch)` in src/main.ts lines 102-116.  Note the TypeScript
variant has no case for the identifier arm64; only x86_64, aarch64 and
armv7l are mapped, everything else throws Unsupported architecture. -/
def binaryArchTS (arch : String) : Option String :=
  if arch = "x86_64" then some "amd64"
  else if arch = "aarch64" then some "arm64"
  else if arch = "armv7l" then some "arm"
  else none

/-- The `case "$ARCH"` in setup.sh lines 84-96, whose second pattern is
`aarch64|arm64`. -/
def binaryArchSh (arch : String) : Option String :=
  if arch = "x86_64" then some "amd64"
  else if arch = "aarch64" || arch = "arm64" then some "arm64"
  else if arch = "armv7l" then some "arm"
  else none

/-! ### installKubeSolo (src/main.ts lines 73-197) -/

/-- Whitespace test for the captured-output trim. -/
def isWs (c : Char) : Bool := c = ' ' || c = '\n' || c = '\t' || c = '\r'

/-- The JS string trim() applied to captured command stdout
(src/main.ts lines 89 and 100), written over the character list so that it
evaluates inside the kernel. -/
def trimStr (s : String) : String :=
  ⟨((s.data.dropWhile isWs).reverse.dropWhile isWs).reverse⟩

def latestLookupCmd : String :=
  "bash -c curl -sL https://api.github.com/repos/portainer/kubesolo/releases/latest | grep tag_name | cut -d/quote/ -f4"

def unameCmd : String := "uname -m"

/-- src/main.ts lines 140-160: the templated unit file piped to tee. -/
def teeUnitCmd : String := "bash -c echo kubesolo.service unit | sudo tee /etc/systemd/system/kubesolo.service"

def chmodKubeconfigCmd : String := "sudo chmod 644 " ++ kubeconfigPath

def downloadUrl (version binaryArch : String) : String :=
  "https://github.com/portainer/kubesolo/releases/download/" ++ version ++
    "/kubesolo-" ++ version ++ "-linux-" ++ binaryArch ++ ".tar.gz"

/-- The `curl -sfL <url> -o /tmp/kubesolo.tar.gz` fetch (src/main.ts line 124):
a dedicated event so that attempted downloads are directly observable. -/
def execDownload (w : World) (url : String) (s : Sys) : Sys × Option String :=
  let code := w.codes s.k
  let s1 := { s with k := s.k + 1, evs := s.evs ++ [Ev.download url] }
  (s1, if code = 0 then none else some "exec failed: download")

/-- The strict install chain after the download (src/main.ts lines 128-171):
each command throws on a nonzero exit code. -/
def installTailCmds : List String :=
  ["tar -xzf /tmp/kubesolo.tar.gz -C /tmp",
   "sudo mv /tmp/kubesolo /usr/local/bin/kubesolo",
   "sudo chmod +x /usr/local/bin/kubesolo",
   "sudo mkdir -p /var/lib/kubesolo",
   teeUnitCmd,
   "sudo systemctl daemon-reload",
   "sudo systemctl enable kubesolo",
   "sudo systemctl start kubesolo",
   "rm -f /tmp/kubesolo.tar.gz"]

/-- Run a list of strict commands in order, stopping at the first failure. -/
def runStrictSeq (w : World) (cmds : List String) (s : Sys) : Sys × Option String :=
  match cmds with
  | [] => (s, none)
  | c :: rest =>
    match execStrict w c s with
    | (s1, none) => runStrictSeq w rest s1
    | (s1, some e) => (s1, some e)

/-- src/main.ts lines 80-91: when the input version is latest, capture the
stdout of the release-lookup pipeline and trim it.  The TypeScript variant
performs no emptiness check on the result (unlike setup.sh lines 68-78). -/
def resolveVersion (w : World) (version : String) (s : Sys) : Sys × Option String × String :=
  if version = "latest" then
    let (code, s1) := runCmd w latestLookupCmd s
    if code = 0 then (s1, none, trimStr w.latestOut)
    else (s1, some "exec failed: version lookup", "")
  else (s, none, version)

/-- src/main.ts lines 73-197.  Resolve the version, detect and map the
architecture (hard error on an unmapped identifier), download and extract the
archive, install the binary, write and start the unit, then publish the fixed
kubeconfig path as an output and as KUBECONFIG after a chmod 644 whose return
code is ignored.  No step checks that the kubeconfig file exists. -/
def installKubeSolo (w : World) (version : String) (s : Sys) : Sys × Option String :=
  let sA := infoEv ("Installing KubeSolo " ++ version ++ "...") s
  match resolveVersion w version sA with
  | (sB, some e, _) => (sB, some e)
  | (sB, none, actualVersion) =>
    let (codeU, sC) := runCmd w unameCmd sB
    if codeU ≠ 0 then (sC, some "exec failed: uname -m") else
    match binaryArchTS (trimStr w.unameOut) with
    | none => (sC, some ("Unsupported architecture: " ++ trimStr w.unameOut))
    | some binaryArch =>
      match execDownload w (downloadUrl actualVersion binaryArch) sC with
      | (sD, some e) => (sD, some e)
      | (sD, none) =>
        match runStrictSeq w installTailCmds sD with
        | (sE, some e) => (sE, some e)
        | (sE, none) =>
          let sF := sleepEv 5000 sE
          let sG := execIgnored w chmodKubeconfigCmd sF
          let sH := outputEv "kubeconfig" kubeconfigPath sG
          let sI := exportEv "KUBECONFIG" kubeconfigPath sH
          (infoEv "✓ KubeSolo installed successfully" sI, none)

/-! ### waitForClusterReady (src/main.ts lines 199-294) -/

def isActiveCmd : String := "sudo systemctl is-active kubesolo"

def portCmd : String := "bash -c ss -tlnp | grep -q :6443"

def kubectlGetNodesCmd : String :=
  "kubectl --kubeconfig " ++ kubeconfigPath ++ " get nodes --no-headers"

def kubectlNodeReadyCmd : String :=
  "bash -c " ++ kubectlGetNodesCmd ++ " | grep -q Ready"

/-- One iteration of the readiness loop body after the timeout check
(src/main.ts lines 217-282): the five stages are nested ifs, each gating the
next, and an early failure falls through to the sleep; returns the events the
iteration emitted and whether the cluster was declared ready (break). -/
def iterEvs (o : IterObs) : List Ev × Bool :=
  let e1 := [Ev.cmd isActiveCmd]
  if o.isActiveCode = 0 then
    let e2 := e1 ++ [Ev.cmd portCmd]
    if o.portCode = 0 then
      let e3 := e2 ++ [Ev.access kubeconfigPath]
      if o.credOk then
        let e4 := e3 ++ [Ev.cmd chmodKubeconfigCmd, Ev.cmd kubectlGetNodesCmd]
        if o.kubectlCode = 0 then
          let e5 := e4 ++ [Ev.cmd kubectlNodeReadyCmd]
          if o.readyCode = 0 then
            (e5 ++ [Ev.info "  Node is Ready",
                    Ev.output "kubeconfig" kubeconfigPath,
                    Ev.exportVar "KUBECONFIG" kubeconfigPath], true)
          else (e5, false)
        else (e4, false)
      else (e3, false)
    else (e2, false)
  else (e1, false)

/-- src/main.ts lines 296-319: showDiagnostics, every command best-effort. -/
def diagnosticsEvs : List Ev :=
  [Ev.diagnostics,
   Ev.cmd "sudo systemctl status kubesolo",
   Ev.cmd "sudo journalctl -u kubesolo -n 100 --no-pager",
   Ev.cmd "ls -laR /var/lib/kubesolo/pki/",
   Ev.cmd "sudo ss -tlnp",
   Ev.cmd "ip addr"]

def timeoutMsg : String := "Timeout waiting for cluster to be ready"

/-- src/main.ts lines 208-286: the polling loop.  Each iteration first
compares the observed elapsed seconds against the timeout with a strict
greater-than; on timeout it dumps diagnostics once and throws; otherwise it
runs the gated checks and either breaks on ready or sleeps 5s and retries.
The observation list is the model fuel; an exhausted list stands for a run
the oracle does not determine. -/
def waitLoop (timeout : Nat) : List (Nat × IterObs) → List Ev × Option String
  | [] => ([], some "model: poll observation trace exhausted")
  | (elapsed, o) :: rest =>
    if elapsed > timeout then (diagnosticsEvs, some timeoutMsg)
    else
      let (evs, ready) := iterEvs o
      if ready then (evs, none)
      else
        let (evs2, err) := waitLoop timeout rest
        (evs ++ Ev.sleep 5000 :: evs2, err)

def waitForClusterReady (w : World) (timeout : Nat) (s : Sys) : Sys × Option String :=
  let (evs, err) := waitLoop timeout w.poll
  ({ s with evs := s.evs ++ evs }, err)

/-! ### main (src/main.ts lines 5-34) -/

/-- src/main.ts lines 5-34: save the isPost handoff state first, then disable
conflicting runtimes, install, and optionally wait for readiness. -/
def main (w : World) (version : String) (waitForReady : Bool) (timeout : Nat)
    (s : Sys) : Sys × Option String :=
  let s1 := saveStateEv "isPost" "true" s
  let s2 := disableContainerRuntimes w s1
  match installKubeSolo w version s2 with
  | (s3, some e) => (s3, some e)
  | (s3, none) =>
    if waitForReady then waitForClusterReady w timeout s3 else (s3, none)

/-! ### The bash variant resolution (setup.sh lines 61-107) -/

def shResolveCmd : String :=
  "curl -sL https://api.github.com/repos/portainer/kubesolo/releases/latest | grep tag_name | cut -f4"

/-- setup.sh lines 68-107: resolve latest (the script exits 1 with an error
annotation when the captured result is empty), map the architecture, and only
then attempt the download. -/
def setupShInstall (latestOut arch version : String) : List Ev × Option String :=
  if version = "latest" then
    if latestOut = "" then
      ([Ev.cmd shResolveCmd], some "Failed to resolve latest version from GitHub API")
    else
      match binaryArchSh arch with
      | none => ([Ev.cmd shResolveCmd], some ("Unsupported architecture: " ++ arch))
      | some ba =>
        ([Ev.cmd shResolveCmd, Ev.download (downloadUrl latestOut ba)], none)
  else
    match binaryArchSh arch with
    | none => ([], some ("Unsupported architecture: " ++ arch))
    | some ba => ([Ev.download (downloadUrl version ba)], none)

/-! ### cleanup (src/cleanup.ts) -/

/-- src/cleanup.ts lines 66-75. -/
def filesToRemove : List String :=
  ["/var/lib/kubesolo", "/usr/local/bin/kubesolo",
   "/etc/systemd/system/kubesolo.service", "/opt/cni", "/var/lib/cni",
   "/etc/cni", "/var/log/pods", "/var/log/containers"]

/-- src/cleanup.ts lines 77-93: remove one file tree, logging a warning (not
an error) when the rm reports failure; the path disappears on success. -/
def rmFileStep (w : World) (s : Sys) (file : String) : Sys :=
  let (code, s1) := runCmd w ("sudo rm -rf " ++ file) s
  if code = 0 then
    infoEv ("  Removed " ++ file)
      { s1 with fs := fun p => if p = file then false else s1.fs p }
  else warnEv ("  Failed to remove " ++ file) s1

/-- src/cleanup.ts lines 29-98: stop and disable the service when present,
force-kill stragglers, remove the installed files one by one, reload the
manager.  Every command ignores its return code. -/
def stopKubeSolo (w : World) (s : Sys) : Sys :=
  let sA := infoEv "Stopping KubeSolo..." s
  let (isActive, sB) := runCmd w isActiveCmd sA
  let sC :=
    if isActive = 0 then
      infoEv "  Stopped KubeSolo service"
        (execIgnored w "sudo systemctl stop kubesolo" sB)
    else sB
  let (isEnabled, sD) := runCmd w "sudo systemctl is-enabled kubesolo" sC
  let sE :=
    if isEnabled = 0 then
      infoEv "  Disabled KubeSolo service"
        (execIgnored w "sudo systemctl disable kubesolo" sD)
    else sD
  let sF := execIgnored w "sudo systemctl kill --signal=SIGKILL kubesolo" sE
  let sG := sleepEv 2000 sF
  let sH := filesToRemove.foldl (rmFileStep w) sG
  execIgnored w "sudo systemctl daemon-reload" sH

/-- One iteration of the restore loop (src/cleanup.ts lines 105-116):
`fs.access` the backup path; when it exists, rename it back to the original
path; when the access throws the catch block skips the binary. -/
def restoreBinaryStep (w : World) (s : Sys) (b : String) : Sys :=
  let s1 := accessEv (bakPath b) s
  if s.fs (bakPath b) then
    infoEv ("  Restored " ++ b) (mvFile w (bakPath b) (origPath b) s1)
  else s1

/-- src/cleanup.ts lines 100-117. -/
def restoreContainerRuntimes (w : World) (s : Sys) : Sys :=
  runtimeBinaries.foldl (restoreBinaryStep w)
    (infoEv "Restoring container runtime binaries..." s)

/-- src/cleanup.ts lines 126-134. -/
def unmaskStep (w : World) (s : Sys) (svc : String) : Sys :=
  let (code, s1) := runCmd w ("sudo systemctl unmask " ++ svc) s
  if code = 0 then infoEv ("    Unmasked " ++ svc) s1 else s1

/-- src/cleanup.ts lines 145-166: start each conflicting service; on success
verify it is active, otherwise log a warning; a failed start is also only a
warning. -/
def startServiceStep (w : World) (s : Sys) (svc : String) : Sys :=
  let (code, s1) := runCmd w ("sudo systemctl start " ++ svc) s
  if code = 0 then
    let (act, s2) := runCmd w ("sudo systemctl is-active " ++ svc) s1
    if act = 0 then infoEv ("    " ++ svc ++ " is active and running") s2
    else warnEv ("    " ++ svc ++ " started but is not active - may not be installed") s2
  else warnEv ("    Failed to start " ++ svc ++ " - may not be installed") s1

/-- src/cleanup.ts lines 119-169. -/
def restoreServices (w : World) (s : Sys) : Sys :=
  let sA := infoEv "Restoring container runtime services..." s
  let sB := runtimeServices.foldl (unmaskStep w) sA
  let sC := execIgnored w "sudo systemctl daemon-reload" sB
  let sD := runtimeServices.foldl (startServiceStep w) sC
  infoEv "  Service restoration complete" sD

/-- The three cleanup operations in their source order
(src/cleanup.ts lines 11-18). -/
def cleanupBody (w : World) (s : Sys) : Sys :=
  restoreServices w (restoreContainerRuntimes w
    (stopKubeSolo w (infoEv "Starting cleanup..." s)))

/-- src/cleanup.ts lines 5-27: the whole body runs inside a try/catch whose
catch demotes any thrown error to a warning, so cleanup itself never fails
the job.  Every command in the body ignores its return code and every
`fs.access` throw is caught per binary, so the body is total and the catch
branch is unreachable. -/
def cleanup (w : World) (s : Sys) : Except String Sys :=
  match (Except.ok (cleanupBody w s) : Except String Sys) with
  | Except.ok s1 => Except.ok (infoEv "✓ System state restored" s1)
  | Except.error e => Except.ok (warnEv ("Cleanup encountered errors: " ++ e) s)

/-- Modelled from the spec: the post-run dispatch that reads the persisted
isPost handoff flag is not under src/ (src/main.ts saves the flag and
src/cleanup.ts defines the cleanup operation, but the entry point that
consults `getState` before invoking cleanup is absent).  Per the spec, the
cleanup phase reads the durable flag written by the setup phase and performs
nothing at all when the flag is absent. -/
def postEntry (store : String → Option String) (w : World) (s : Sys) :
    Except String Sys :=
  if store "isPost" = some "true" then cleanup w s else Except.ok s

/-! ### Generic lemmas about folded steps -/

theorem foldl_evs_ext (step : Sys → String → Sys) (P : Ev → Prop)
    (h : ∀ s b, ∃ t, (step s b).evs = s.evs ++ t ∧ ∀ e ∈ t, P e) :
    ∀ (l : List String) (s : Sys),
      ∃ t, (l.foldl step s).evs = s.evs ++ t ∧ ∀ e ∈ t, P e := by
  intro l
  induction l with
  | nil => exact fun s => ⟨[], by simp⟩
  | cons b rest ih =>
    intro s
    obtain ⟨t1, h1, hp1⟩ := h s b
    obtain ⟨t2, h2, hp2⟩ := ih (step s b)
    refine ⟨t1 ++ t2, ?_, ?_⟩
    · simp [List.foldl_cons, h2, h1]
    · intro e he
      rcases List.mem_append.mp he with he | he
      · exact hp1 e he
      · exact hp2 e he

theorem foldl_fs_keep (step : Sys → String → Sys) (p : String) (v : Bool) :
    ∀ (l : List String),
      (∀ s b, b ∈ l → s.fs p = v → (step s b).fs p = v) →
      ∀ s, s.fs p = v → (l.foldl step s).fs p = v := by
  intro l
  induction l with
  | nil => exact fun _ s hs => hs
  | cons b rest ih =>
    intro h s hs
    rw [List.foldl_cons]
    exact ih (fun s c hc => h s c (List.mem_cons_of_mem _ hc))
      (step s b) (h s b (List.mem_cons_self _ _) hs)

theorem foldl_fs_id (step : Sys → String → Sys)
    (h : ∀ s b, (step s b).fs = s.fs) :
    ∀ (l : List String) (s : Sys), (l.foldl step s).fs = s.fs := by
  intro l
  induction l with
  | nil => exact fun _ => rfl
  | cons b rest ih =>
    intro s
    rw [List.foldl_cons, ih (step s b), h s b]

/-! ### Pointwise facts about the backup and restore steps -/

theorem stopMaskStep_fs (w : World) (s : Sys) (svc : String) :
    (stopMaskStep w s svc).fs = s.fs := rfl

theorem backupBinaryStep_fs_other (w : World) (s : Sys) (b p : String)
    (h1 : p ≠ origPath b) (h2 : p ≠ bakPath b) :
    (backupBinaryStep w s b).fs p = s.fs p := by
  unfold backupBinaryStep
  by_cases hfs : s.fs (origPath b) = true
  · simp [hfs, infoEv, mvFile, accessEv, h1, h2]
  · simp [Bool.not_eq_true] at hfs
    simp [hfs, accessEv]

theorem backupBinaryStep_fs_orig (w : World) (s : Sys) (b : String)
    (hne : origPath b ≠ bakPath b) :
    (backupBinaryStep w s b).fs (origPath b) = false := by
  unfold backupBinaryStep
  by_cases hfs : s.fs (origPath b) = true
  · simp [hfs, infoEv, mvFile, accessEv, hne]
  · simp [Bool.not_eq_true] at hfs
    simp [hfs, accessEv]

theorem backupBinaryStep_fs_bak (w : World) (s : Sys) (b : String) :
    (backupBinaryStep w s b).fs (bakPath b) =
      (s.fs (origPath b) || s.fs (bakPath b)) := by
  unfold backupBinaryStep
  by_cases hfs : s.fs (origPath b) = true
  · simp [hfs, infoEv, mvFile, accessEv]
  · simp [Bool.not_eq_true] at hfs
    simp [hfs, accessEv]

theorem restoreBinaryStep_fs_other (w : World) (s : Sys) (b p : String)
    (h1 : p ≠ origPath b) (h2 : p ≠ bakPath b) :
    (restoreBinaryStep w s b).fs p = s.fs p := by
  unfold restoreBinaryStep
  by_cases hfs : s.fs (bakPath b) = true
  · simp [hfs, infoEv, mvFile, accessEv, h1, h2]
  · simp [Bool.not_eq_true] at hfs
    simp [hfs, accessEv]

theorem restoreBinaryStep_fs_bak (w : World) (s : Sys) (b : String)
    (hne : origPath b ≠ bakPath b) :
    (restoreBinaryStep w s b).fs (bakPath b) = false := by
  unfold restoreBinaryStep
  by_cases hfs : s.fs (bakPath b) = true
  · simp [hfs, infoEv, mvFile, accessEv, Ne.symm hne]
  · simp [Bool.not_eq_true] at hfs
    simp [hfs, accessEv]

theorem restoreBinaryStep_fs_orig (w : World) (s : Sys) (b : String) :
    (restoreBinaryStep w s b).fs (origPath b) =
      (s.fs (bakPath b) || s.fs (origPath b)) := by
  unfold restoreBinaryStep
  by_cases hfs : s.fs (bakPath b) = true
  · simp [hfs, infoEv, mvFile, accessEv]
  · simp [Bool.not_eq_true] at hfs
    simp [hfs, accessEv]

/-! ### Decidable distinctness facts about the concrete path lists -/

theorem binaries_self_ne : ∀ b ∈ runtimeBinaries, origPath b ≠ bakPath b := by
  decide

theorem binaries_cross_ne :
    ∀ b ∈ runtimeBinaries, ∀ c ∈ runtimeBinaries, b ≠ c →
      origPath b ≠ origPath c ∧ origPath b ≠ bakPath c ∧
      bakPath b ≠ origPath c ∧ bakPath b ≠ bakPath c := by
  decide

theorem binaries_not_socket :
    ∀ b ∈ runtimeBinaries,
      socketPaths.contains (origPath b) = false ∧
      socketPaths.contains (bakPath b) = false := by
  decide

theorem binaries_nodup : runtimeBinaries.Nodup := by decide

theorem binaries_orig_bak_ne :
    ∀ b ∈ runtimeBinaries, ∀ c ∈ runtimeBinaries, origPath b ≠ bakPath c := by
  decide

theorem binaries_bak_orig_ne :
    ∀ b ∈ runtimeBinaries, ∀ c ∈ runtimeBinaries, bakPath b ≠ origPath c := by
  decide

/-! ### The backup loop leaves no original path, the restore loop no backup -/

theorem backup_fold_orig_false (w : World) :
    ∀ (l : List String),
      (∀ c ∈ l, origPath c ≠ bakPath c) →
      ∀ b, b ∈ l →
      (∀ c ∈ l, origPath b ≠ bakPath c) →
      ∀ s, (l.foldl (backupBinaryStep w) s).fs (origPath b) = false := by
  intro l
  induction l with
  | nil => intro _ b hb; cases hb
  | cons c rest ih =>
    intro hself b hb hbb s
    rw [List.foldl_cons]
    rcases List.mem_cons.mp hb with hbc | hbrest
    · subst hbc
      refine foldl_fs_keep (backupBinaryStep w) (origPath b) false rest ?_ _
        (backupBinaryStep_fs_orig w s b (hself b (List.mem_cons_self _ _)))
      intro s2 c2 hc2 h0
      by_cases he : origPath b = origPath c2
      · rw [he]
        exact backupBinaryStep_fs_orig w s2 c2 (hself c2 (List.mem_cons_of_mem _ hc2))
      · rw [backupBinaryStep_fs_other w s2 c2 (origPath b) he
          (hbb c2 (List.mem_cons_of_mem _ hc2))]
        exact h0
    · exact ih (fun c2 hc2 => hself c2 (List.mem_cons_of_mem _ hc2)) b hbrest
        (fun c2 hc2 => hbb c2 (List.mem_cons_of_mem _ hc2)) (backupBinaryStep w s c)

theorem restore_fold_bak_false (w : World) :
    ∀ (l : List String),
      (∀ c ∈ l, origPath c ≠ bakPath c) →
      ∀ b, b ∈ l →
      (∀ c ∈ l, bakPath b ≠ origPath c) →
      ∀ s, (l.foldl (restoreBinaryStep w) s).fs (bakPath b) = false := by
  intro l
  induction l with
  | nil => intro _ b hb; cases hb
  | cons c rest ih =>
    intro hself b hb hbo s
    rw [List.foldl_cons]
    rcases List.mem_cons.mp hb with hbc | hbrest
    · subst hbc
      refine foldl_fs_keep (restoreBinaryStep w) (bakPath b) false rest ?_ _
        (restoreBinaryStep_fs_bak w s b (hself b (List.mem_cons_self _ _)))
      intro s2 c2 hc2 h0
      by_cases he : bakPath b = bakPath c2
      · rw [he]
        exact restoreBinaryStep_fs_bak w s2 c2 (hself c2 (List.mem_cons_of_mem _ hc2))
      · rw [restoreBinaryStep_fs_other w s2 c2 (bakPath b)
          (hbo c2 (List.mem_cons_of_mem _ hc2)) he]
        exact h0
    · exact ih (fun c2 hc2 => hself c2 (List.mem_cons_of_mem _ hc2)) b hbrest
        (fun c2 hc2 => hbo c2 (List.mem_cons_of_mem _ hc2)) (restoreBinaryStep w s c)

theorem backup_fold_bak_true (w : World) :
    ∀ (l : List String), l.Nodup →
      ∀ b, b ∈ l →
      (∀ c ∈ l, origPath c ≠ bakPath c) →
      (∀ c ∈ l, c ≠ b →
        origPath b ≠ origPath c ∧ origPath b ≠ bakPath c ∧
        bakPath b ≠ origPath c ∧ bakPath b ≠ bakPath c) →
      ∀ s, s.fs (origPath b) = true →
        (l.foldl (backupBinaryStep w) s).fs (bakPath b) = true := by
  intro l
  induction l with
  | nil => intro _ b hb; cases hb
  | cons c rest ih =>
    intro hnd b hb hself hdist s hfs
    rw [List.foldl_cons]
    rcases List.mem_cons.mp hb with hbc | hbrest
    · subst hbc
      have hstep : (backupBinaryStep w s b).fs (bakPath b) = true := by
        rw [backupBinaryStep_fs_bak w s b, hfs]
        rfl
      refine foldl_fs_keep (backupBinaryStep w) (bakPath b) true rest ?_ _ hstep
      intro s2 c2 hc2 h0
      have hne : c2 ≠ b := by
        intro he
        subst he
        exact (List.nodup_cons.mp hnd).1 hc2
      obtain ⟨_, _, h3, h4⟩ := hdist c2 (List.mem_cons_of_mem _ hc2) hne
      rw [backupBinaryStep_fs_other w s2 c2 (bakPath b) h3 h4]
      exact h0
    · have hcb : c ≠ b := by
        intro he
        subst he
        exact (List.nodup_cons.mp hnd).1 hbrest
      obtain ⟨h1, h2, _, _⟩ := hdist c (List.mem_cons_self _ _) hcb
      refine ih (List.nodup_cons.mp hnd).2 b hbrest
        (fun c2 hc2 => hself c2 (List.mem_cons_of_mem _ hc2))
        (fun c2 hc2 hne => hdist c2 (List.mem_cons_of_mem _ hc2) hne)
        (backupBinaryStep w s c) ?_
      rw [backupBinaryStep_fs_other w s c (origPath b) h1 h2]
      exact hfs

theorem restore_fold_orig_true (w : World) :
    ∀ (l : List String), l.Nodup →
      ∀ b, b ∈ l →
      (∀ c ∈ l, origPath c ≠ bakPath c) →
      (∀ c ∈ l, c ≠ b →
        origPath b ≠ origPath c ∧ origPath b ≠ bakPath c ∧
        bakPath b ≠ origPath c ∧ bakPath b ≠ bakPath c) →
      ∀ s, s.fs (bakPath b) = true →
        (l.foldl (restoreBinaryStep w) s).fs (origPath b) = true := by
  intro l
  induction l with
  | nil => intro _ b hb; cases hb
  | cons c rest ih =>
    intro hnd b hb hself hdist s hfs
    rw [List.foldl_cons]
    rcases List.mem_cons.mp hb with hbc | hbrest
    · subst hbc
      have hstep : (restoreBinaryStep w s b).fs (origPath b) = true := by
        rw [restoreBinaryStep_fs_orig w s b, hfs]
        rfl
      refine foldl_fs_keep (restoreBinaryStep w) (origPath b) true rest ?_ _ hstep
      intro s2 c2 hc2 h0
      have hne : c2 ≠ b := by
        intro he
        subst he
        exact (List.nodup_cons.mp hnd).1 hc2
      obtain ⟨h1, h2, _, _⟩ := hdist c2 (List.mem_cons_of_mem _ hc2) hne
      rw [restoreBinaryStep_fs_other w s2 c2 (origPath b) h1 h2]
      exact h0
    · have hcb : c ≠ b := by
        intro he
        subst he
        exact (List.nodup_cons.mp hnd).1 hbrest
      obtain ⟨_, _, h3, h4⟩ := hdist c (List.mem_cons_self _ _) hcb
      refine ih (List.nodup_cons.mp hnd).2 b hbrest
        (fun c2 hc2 => hself c2 (List.mem_cons_of_mem _ hc2))
        (fun c2 hc2 hne => hdist c2 (List.mem_cons_of_mem _ hc2) hne)
        (restoreBinaryStep w s c) ?_
      rw [restoreBinaryStep_fs_other w s c (bakPath b) h3 h4]
      exact hfs

/-! ### Skip behavior of the loops when there is nothing to move -/

theorem backup_fold_skip (w : World) :
    ∀ (l : List String) (s : Sys), (∀ b ∈ l, s.fs (origPath b) = false) →
      (l.foldl (backupBinaryStep w) s).fs = s.fs ∧
      ∃ t, (l.foldl (backupBinaryStep w) s).evs = s.evs ++ t ∧
        ∀ src dst, Ev.mv src dst ∉ t := by
  intro l
  induction l with
  | nil =>
    intro s _
    exact ⟨rfl, [], by simp, by simp⟩
  | cons b rest ih =>
    intro s h
    rw [List.foldl_cons]
    have hb : s.fs (origPath b) = false := h b (List.mem_cons_self _ _)
    have hstep : backupBinaryStep w s b = accessEv (origPath b) s := by
      simp [backupBinaryStep, hb]
    rw [hstep]
    obtain ⟨hfs, t, ht, hmv⟩ :=
      ih (accessEv (origPath b) s) (fun c hc => h c (List.mem_cons_of_mem _ hc))
    refine ⟨by rw [hfs]; rfl, Ev.access (origPath b) :: t, ?_, ?_⟩
    · rw [ht]
      simp [accessEv]
    · intro src dst hmem
      rcases List.mem_cons.mp hmem with hx | hx
      · cases hx
      · exact hmv src dst hx

theorem restore_fold_skip (w : World) :
    ∀ (l : List String) (s : Sys), (∀ b ∈ l, s.fs (bakPath b) = false) →
      (l.foldl (restoreBinaryStep w) s).fs = s.fs ∧
      ∃ t, (l.foldl (restoreBinaryStep w) s).evs = s.evs ++ t ∧
        ∀ src dst, Ev.mv src dst ∉ t := by
  intro l
  induction l with
  | nil =>
    intro s _
    exact ⟨rfl, [], by simp, by simp⟩
  | cons b rest ih =>
    intro s h
    rw [List.foldl_cons]
    have hb : s.fs (bakPath b) = false := h b (List.mem_cons_self _ _)
    have hstep : restoreBinaryStep w s b = accessEv (bakPath b) s := by
      simp [restoreBinaryStep, hb]
    rw [hstep]
    obtain ⟨hfs, t, ht, hmv⟩ :=
      ih (accessEv (bakPath b) s) (fun c hc => h c (List.mem_cons_of_mem _ hc))
    refine ⟨by rw [hfs]; rfl, Ev.access (bakPath b) :: t, ?_, ?_⟩
    · rw [ht]
      simp [accessEv]
    · intro src dst hmem
      rcases List.mem_cons.mp hmem with hx | hx
      · cases hx
      · exact hmv src dst hx

/-! ### Filesystem effect of the whole disable and restore operations -/

theorem disable_fs_eq (w : World) (s : Sys) (p : String) :
    (disableContainerRuntimes w s).fs p =
      if socketPaths.contains p then false
      else (runtimeBinaries.foldl (backupBinaryStep w)
        (runtimeServices.foldl (stopMaskStep w)
          (infoEv "Stopping container runtime services..." s))).fs p := rfl

theorem stopMask_fold_fs (w : World) (s : Sys) (m : String) :
    (runtimeServices.foldl (stopMaskStep w) (infoEv m s)).fs = s.fs :=
  foldl_fs_id (stopMaskStep w) (stopMaskStep_fs w) runtimeServices (infoEv m s)

theorem disable_fs_orig_false (w : World) (s : Sys) :
    ∀ b ∈ runtimeBinaries,
      (disableContainerRuntimes w s).fs (origPath b) = false := by
  intro b hb
  rw [disable_fs_eq]
  have hsock := (binaries_not_socket b hb).1
  simp only [hsock, Bool.false_eq_true, if_false]
  exact backup_fold_orig_false w runtimeBinaries binaries_self_ne b hb
    (binaries_orig_bak_ne b hb) _

theorem disable_fs_bak_true (w : World) (s : Sys) (b : String)
    (hb : b ∈ runtimeBinaries) (hfs : s.fs (origPath b) = true) :
    (disableContainerRuntimes w s).fs (bakPath b) = true := by
  rw [disable_fs_eq]
  have hsock := (binaries_not_socket b hb).2
  simp only [hsock, Bool.false_eq_true, if_false]
  refine backup_fold_bak_true w runtimeBinaries binaries_nodup b hb
    binaries_self_ne
    (fun c hc hne => binaries_cross_ne b hb c hc (Ne.symm hne)) _ ?_
  rw [stopMask_fold_fs]
  exact hfs

theorem disable_fs_socket_false (w : World) (s : Sys) (p : String)
    (hp : socketPaths.contains p = true) :
    (disableContainerRuntimes w s).fs p = false := by
  rw [disable_fs_eq]
  simp only [hp]
  rfl

theorem restore_fs_bak_false (w : World) (s : Sys) :
    ∀ b ∈ runtimeBinaries,
      (restoreContainerRuntimes w s).fs (bakPath b) = false := by
  intro b hb
  unfold restoreContainerRuntimes
  exact restore_fold_bak_false w runtimeBinaries binaries_self_ne b hb
    (binaries_bak_orig_ne b hb) _

theorem restore_fs_orig_true (w : World) (s : Sys) (b : String)
    (hb : b ∈ runtimeBinaries) (hfs : s.fs (bakPath b) = true) :
    (restoreContainerRuntimes w s).fs (origPath b) = true := by
  unfold restoreContainerRuntimes
  exact restore_fold_orig_true w runtimeBinaries binaries_nodup b hb
    binaries_self_ne
    (fun c hc hne => binaries_cross_ne b hb c hc (Ne.symm hne))
    _ hfs

/-! ### Trace shape of the individual steps -/

theorem infoEv_evs (m : String) (s : Sys) :
    (infoEv m s).evs = s.evs ++ [Ev.info m] := rfl

theorem stopMaskStep_evs (w : World) (s : Sys) (svc : String) :
    (stopMaskStep w s svc).evs =
      s.evs ++ [Ev.cmd ("sudo systemctl stop " ++ svc),
                Ev.cmd ("sudo systemctl mask " ++ svc)] := by
  simp [stopMaskStep, execIgnored, runCmd]

theorem rmPaths_evs (w : World) (c : String) (ps : List String) (s : Sys) :
    (rmPaths w c ps s).evs = s.evs ++ [Ev.cmd c] := rfl

theorem stopMask_fold_ext (w : World) :
    ∀ (l : List String) (s : Sys),
      ∃ t, (l.foldl (stopMaskStep w) s).evs = s.evs ++ t ∧
        ∀ e ∈ t, ∀ src dst, e ≠ Ev.mv src dst := by
  refine foldl_evs_ext (stopMaskStep w) (fun e => ∀ src dst, e ≠ Ev.mv src dst) ?_
  intro s b
  refine ⟨[Ev.cmd ("sudo systemctl stop " ++ b), Ev.cmd ("sudo systemctl mask " ++ b)],
    stopMaskStep_evs w s b, ?_⟩
  intro e he src dst
  rcases List.mem_cons.mp he with rfl | he
  · simp
  rcases List.mem_cons.mp he with rfl | he
  · simp
  cases he

/-! ### Running either loop a second time changes nothing on disk -/

theorem disable_disable (w w2 : World) (s : Sys) :
    (disableContainerRuntimes w2 (disableContainerRuntimes w s)).fs
        = (disableContainerRuntimes w s).fs ∧
    ∃ t, (disableContainerRuntimes w2 (disableContainerRuntimes w s)).evs
        = (disableContainerRuntimes w s).evs ++ t ∧
      ∀ src dst, Ev.mv src dst ∉ t := by
  set s1 := disableContainerRuntimes w s with hs1
  have horig : ∀ b ∈ runtimeBinaries,
      (runtimeServices.foldl (stopMaskStep w2)
        (infoEv "Stopping container runtime services..." s1)).fs (origPath b) = false := by
    intro b hb
    rw [stopMask_fold_fs]
    exact disable_fs_orig_false w s b hb
  obtain ⟨hfsSkip, t2, ht2, hmv2⟩ := backup_fold_skip w2 runtimeBinaries _ horig
  obtain ⟨tS, htS, hPS⟩ := stopMask_fold_ext w2 runtimeServices
    (infoEv "Stopping container runtime services..." s1)
  constructor
  · funext p
    rw [disable_fs_eq w2 s1]
    cases hp : socketPaths.contains p with
    | true =>
      rw [if_pos rfl]
      exact (disable_fs_socket_false w s p hp).symm
    | false =>
      rw [if_neg Bool.false_ne_true]
      rw [hfsSkip, stopMask_fold_fs]
  · refine ⟨Ev.info "Stopping container runtime services..." ::
      (tS ++ t2 ++ [Ev.cmd rmSocketsCmd, Ev.info "✓ Container runtimes disabled"]), ?_, ?_⟩
    · show (disableContainerRuntimes w2 s1).evs = _
      unfold disableContainerRuntimes
      rw [infoEv_evs, rmPaths_evs, ht2, htS, infoEv_evs]
      simp [List.append_assoc]
    · intro src dst hmem
      rcases List.mem_cons.mp hmem with hx | hx
      · cases hx
      rcases List.mem_append.mp hx with hx | hx
      · rcases List.mem_append.mp hx with hx | hx
        · exact hPS _ hx src dst rfl
        · exact hmv2 src dst hx
      · rcases List.mem_cons.mp hx with hx | hx
        · cases hx
        rcases List.mem_cons.mp hx with hx | hx
        · cases hx
        cases hx

theorem restore_restore (w w2 : World) (s : Sys) :
    (restoreContainerRuntimes w2 (restoreContainerRuntimes w s)).fs
        = (restoreContainerRuntimes w s).fs ∧
    ∃ t, (restoreContainerRuntimes w2 (restoreContainerRuntimes w s)).evs
        = (restoreContainerRuntimes w s).evs ++ t ∧
      ∀ src dst, Ev.mv src dst ∉ t := by
  set s1 := restoreContainerRuntimes w s with hs1
  have hbak : ∀ b ∈ runtimeBinaries,
      (infoEv "Restoring container runtime binaries..." s1).fs (bakPath b) = false := by
    intro b hb
    exact restore_fs_bak_false w s b hb
  obtain ⟨hfsSkip, t2, ht2, hmv2⟩ := restore_fold_skip w2 runtimeBinaries _ hbak
  constructor
  · show (restoreContainerRuntimes w2 s1).fs = s1.fs
    unfold restoreContainerRuntimes
    exact hfsSkip
  · refine ⟨Ev.info "Restoring container runtime binaries..." :: t2, ?_, ?_⟩
    · show (restoreContainerRuntimes w2 s1).evs = _
      unfold restoreContainerRuntimes
      rw [ht2, infoEv_evs]
      simp [List.append_assoc]
    · intro src dst hmem
      rcases List.mem_cons.mp hmem with hx | hx
      · cases hx
      exact hmv2 src dst hx

/-! ### Trace shape of the installer -/

theorem runStrictSeq_ext (w : World) :
    ∀ (cmds : List String) (s : Sys),
      ∃ t, (runStrictSeq w cmds s).1.evs = s.evs ++ t ∧
        ∀ e ∈ t, ∃ c, e = Ev.cmd c := by
  intro cmds
  induction cmds with
  | nil =>
    intro s
    exact ⟨[], by simp [runStrictSeq], by simp⟩
  | cons c rest ih =>
    intro s
    by_cases hc : w.codes s.k = 0
    · have hstep : runStrictSeq w (c :: rest) s =
          runStrictSeq w rest { s with k := s.k + 1, evs := s.evs ++ [Ev.cmd c] } := by
        simp [runStrictSeq, execStrict, runCmd, hc]
      rw [hstep]
      obtain ⟨t2, ht2, hp2⟩ := ih _
      refine ⟨Ev.cmd c :: t2, ?_, ?_⟩
      · rw [ht2]
        simp
      · intro e he
        rcases List.mem_cons.mp he with rfl | he
        · exact ⟨c, rfl⟩
        · exact hp2 e he
    · have hstep : runStrictSeq w (c :: rest) s =
          ({ s with k := s.k + 1, evs := s.evs ++ [Ev.cmd c] },
            some ("exec failed: " ++ c)) := by
        simp [runStrictSeq, execStrict, runCmd, hc]
      rw [hstep]
      refine ⟨[Ev.cmd c], rfl, ?_⟩
      intro e he
      rcases List.mem_cons.mp he with rfl | he
      · exact ⟨c, rfl⟩
      · cases he

theorem resolveVersion_ext (w : World) (version : String) (s : Sys) :
    ∃ t, (resolveVersion w version s).1.evs = s.evs ++ t ∧
      ∀ e ∈ t, ∃ c, e = Ev.cmd c := by
  unfold resolveVersion
  by_cases hv : version = "latest"
  · by_cases hc : w.codes s.k = 0
    · refine ⟨[Ev.cmd latestLookupCmd], ?_, ?_⟩
      · simp [hv, hc, runCmd]
      · intro e he
        rcases List.mem_cons.mp he with rfl | he
        · exact ⟨latestLookupCmd, rfl⟩
        · cases he
    · refine ⟨[Ev.cmd latestLookupCmd], ?_, ?_⟩
      · simp [hv, hc, runCmd]
      · intro e he
        rcases List.mem_cons.mp he with rfl | he
        · exact ⟨latestLookupCmd, rfl⟩
        · cases he
  · refine ⟨[], ?_, by simp⟩
    simp [hv]

theorem backupBinaryStep_ext (w : World) (s : Sys) (b : String) :
    ∃ t, (backupBinaryStep w s b).evs = s.evs ++ t := by
  unfold backupBinaryStep
  by_cases hfs : s.fs (origPath b) = true
  · refine ⟨[Ev.access (origPath b), Ev.mv (origPath b) (bakPath b),
      Ev.info ("  Backed up " ++ b)], ?_⟩
    simp [hfs, infoEv, mvFile, accessEv]
  · simp only [Bool.not_eq_true] at hfs
    refine ⟨[Ev.access (origPath b)], ?_⟩
    simp [hfs, accessEv]

theorem disable_evs_ext (w : World) (s : Sys) :
    ∃ t, (disableContainerRuntimes w s).evs = s.evs ++ t := by
  obtain ⟨tS, htS, _⟩ := stopMask_fold_ext w runtimeServices
    (infoEv "Stopping container runtime services..." s)
  obtain ⟨tB, htB, _⟩ := foldl_evs_ext (backupBinaryStep w) (fun _ => True)
    (fun s2 b => by
      obtain ⟨t, ht⟩ := backupBinaryStep_ext w s2 b
      exact ⟨t, ht, fun _ _ => trivial⟩)
    runtimeBinaries _
  refine ⟨Ev.info "Stopping container runtime services..." ::
    (tS ++ tB ++ [Ev.cmd rmSocketsCmd, Ev.info "✓ Container runtimes disabled"]), ?_⟩
  unfold disableContainerRuntimes
  rw [infoEv_evs, rmPaths_evs, htB, htS, infoEv_evs]
  simp [List.append_assoc]

theorem wait_evs_ext (w : World) (timeout : Nat) (s : Sys) :
    ∃ t, (waitForClusterReady w timeout s).1.evs = s.evs ++ t := by
  exact ⟨(waitLoop timeout w.poll).1, rfl⟩

/-- The one branch analysis of `installKubeSolo`: the installer only appends
events, none of them a filesystem access probe; on success the kubeconfig
output and KUBECONFIG export are among the appended events; and when the
architecture does not map, the installer fails and never emits a download. -/
theorem install_shape (w : World) (version : String) (s : Sys) :
    ∃ t, (installKubeSolo w version s).1.evs = s.evs ++ t ∧
      (∀ e ∈ t, ∀ p, e ≠ Ev.access p) ∧
      ((installKubeSolo w version s).2 = none →
        Ev.output "kubeconfig" kubeconfigPath ∈ t ∧
        Ev.exportVar "KUBECONFIG" kubeconfigPath ∈ t) ∧
      (binaryArchTS (trimStr w.unameOut) = none →
        (installKubeSolo w version s).2.isSome = true ∧
        ∀ u, Ev.download u ∉ t) := by
  obtain ⟨tR, htR, hpR⟩ := resolveVersion_ext w version
    (infoEv ("Installing KubeSolo " ++ version ++ "...") s)
  unfold installKubeSolo
  dsimp only
  rcases hres : resolveVersion w version
      (infoEv ("Installing KubeSolo " ++ version ++ "...") s) with ⟨sB, eB, vB⟩
  rw [hres] at htR
  simp only at htR
  cases eB with
  | some e =>
    refine ⟨Ev.info ("Installing KubeSolo " ++ version ++ "...") :: tR, ?_, ?_, ?_, ?_⟩
    · simp only [htR, infoEv_evs]
      simp
    · intro ev he p
      rcases List.mem_cons.mp he with rfl | he
      · simp
      · obtain ⟨c, rfl⟩ := hpR ev he
        simp
    · intro h
      cases h
    · intro _
      refine ⟨rfl, ?_⟩
      intro u hu
      rcases List.mem_cons.mp hu with hx | hx
      · cases hx
      · obtain ⟨c, hc⟩ := hpR _ hx
        cases hc
  | none =>
    simp only [runCmd]
    by_cases hu : w.codes sB.k ≠ 0
    · rw [if_pos hu]
      refine ⟨Ev.info ("Installing KubeSolo " ++ version ++ "...") :: (tR ++ [Ev.cmd unameCmd]),
        ?_, ?_, ?_, ?_⟩
      · simp only [htR, infoEv_evs]
        simp
      · intro ev he p
        rcases List.mem_cons.mp he with rfl | he
        · simp
        rcases List.mem_append.mp he with hx | hx
        · obtain ⟨c, rfl⟩ := hpR ev hx
          simp
        · rcases List.mem_cons.mp hx with rfl | hx
          · simp
          · cases hx
      · intro h
        cases h
      · intro _
        refine ⟨rfl, ?_⟩
        intro u hu2
        rcases List.mem_cons.mp hu2 with hx | hx
        · cases hx
        rcases List.mem_append.mp hx with hx | hx
        · obtain ⟨c, hc⟩ := hpR _ hx
          cases hc
        · rcases List.mem_cons.mp hx with hx | hx
          · cases hx
          · cases hx
    · rw [if_neg hu]
      rcases harch : binaryArchTS (trimStr w.unameOut) with _ | ba
      · refine ⟨Ev.info ("Installing KubeSolo " ++ version ++ "...") :: (tR ++ [Ev.cmd unameCmd]),
          ?_, ?_, ?_, ?_⟩
        · simp only [htR, infoEv_evs]
          simp
        · intro ev he p
          rcases List.mem_cons.mp he with rfl | he
          · simp
          rcases List.mem_append.mp he with hx | hx
          · obtain ⟨c, rfl⟩ := hpR ev hx
            simp
          · rcases List.mem_cons.mp hx with rfl | hx
            · simp
            · cases hx
        · intro h
          cases h
        · intro _
          refine ⟨rfl, ?_⟩
          intro u hu2
          rcases List.mem_cons.mp hu2 with hx | hx
          · cases hx
          rcases List.mem_append.mp hx with hx | hx
          · obtain ⟨c, hc⟩ := hpR _ hx
            cases hc
          · rcases List.mem_cons.mp hx with hx | hx
            · cases hx
            · cases hx
      · simp only [execDownload]
        by_cases hd : w.codes (sB.k + 1) = 0
        · rw [if_pos hd]
          dsimp only
          obtain ⟨tT, htT, hpT⟩ := runStrictSeq_ext w installTailCmds _
          rcases hseq : runStrictSeq w installTailCmds
              { sB with
                k := sB.k + 1 + 1
                evs := (sB.evs ++ [Ev.cmd unameCmd]) ++ [Ev.download (downloadUrl vB ba)] }
              with ⟨sE, eE⟩
          rw [hseq] at htT
          simp only at htT
          cases eE with
          | some e =>
            refine ⟨Ev.info ("Installing KubeSolo " ++ version ++ "...") ::
              (tR ++ [Ev.cmd unameCmd] ++ [Ev.download (downloadUrl vB ba)] ++ tT),
              ?_, ?_, ?_, ?_⟩
            · rw [htT]
              simp only [htR, infoEv_evs]
              simp
            · intro ev he p
              rcases List.mem_cons.mp he with rfl | he
              · simp
              rcases List.mem_append.mp he with hx | hx
              · rcases List.mem_append.mp hx with hx | hx
                · rcases List.mem_append.mp hx with hx | hx
                  · obtain ⟨c, rfl⟩ := hpR ev hx
                    simp
                  · rcases List.mem_cons.mp hx with rfl | hx
                    · simp
                    · cases hx
                · rcases List.mem_cons.mp hx with rfl | hx
                  · simp
                  · cases hx
              · obtain ⟨c, rfl⟩ := hpT ev hx
                simp
            · intro h
              cases h
            · intro hnone
              exact Option.noConfusion hnone
          | none =>
            refine ⟨Ev.info ("Installing KubeSolo " ++ version ++ "...") ::
              (tR ++ [Ev.cmd unameCmd] ++ [Ev.download (downloadUrl vB ba)] ++ tT ++
                [Ev.sleep 5000, Ev.cmd chmodKubeconfigCmd,
                 Ev.output "kubeconfig" kubeconfigPath,
                 Ev.exportVar "KUBECONFIG" kubeconfigPath,
                 Ev.info "✓ KubeSolo installed successfully"]),
              ?_, ?_, ?_, ?_⟩
            · simp only [infoEv_evs, exportEv, outputEv, execIgnored, runCmd, sleepEv]
              rw [htT]
              simp only [htR, infoEv_evs]
              simp
            · intro ev he p
              rcases List.mem_cons.mp he with rfl | he
              · simp
              rcases List.mem_append.mp he with hx | hx
              · rcases List.mem_append.mp hx with hx | hx
                · rcases List.mem_append.mp hx with hx | hx
                  · rcases List.mem_append.mp hx with hx | hx
                    · obtain ⟨c, rfl⟩ := hpR ev hx
                      simp
                    · rcases List.mem_cons.mp hx with rfl | hx
                      · simp
                      · cases hx
                  · rcases List.mem_cons.mp hx with rfl | hx
                    · simp
                    · cases hx
                · obtain ⟨c, rfl⟩ := hpT ev hx
                  simp
              · fin_cases hx <;> simp
            · intro _
              constructor
              · refine List.mem_cons_of_mem _ ?_
                refine List.mem_append.mpr (Or.inr ?_)
                simp
              · refine List.mem_cons_of_mem _ ?_
                refine List.mem_append.mpr (Or.inr ?_)
                simp
            · intro hnone
              exact Option.noConfusion hnone
        · rw [if_neg hd]
          dsimp only
          refine ⟨Ev.info ("Installing KubeSolo " ++ version ++ "...") ::
            (tR ++ [Ev.cmd unameCmd] ++ [Ev.download (downloadUrl vB ba)]), ?_, ?_, ?_, ?_⟩
          · simp only [htR, infoEv_evs]
            simp
          · intro ev he p
            rcases List.mem_cons.mp he with rfl | he
            · simp
            rcases List.mem_append.mp he with hx | hx
            · rcases List.mem_append.mp hx with hx | hx
              · obtain ⟨c, rfl⟩ := hpR ev hx
                simp
              · rcases List.mem_cons.mp hx with rfl | hx
                · simp
                · cases hx
            · rcases List.mem_cons.mp hx with rfl | hx
              · simp
              · cases hx
          · intro h
            cases h
          · intro hnone
            exact Option.noConfusion hnone

/-! ### Trace shape of the cleanup operations -/

theorem rmFileStep_ext (w : World) (s : Sys) (f : String) :
    ∃ t, (rmFileStep w s f).evs = s.evs ++ t := by
  unfold rmFileStep
  by_cases hc : w.codes s.k = 0
  · refine ⟨[Ev.cmd ("sudo rm -rf " ++ f), Ev.info ("  Removed " ++ f)], ?_⟩
    simp [runCmd, hc, infoEv]
  · refine ⟨[Ev.cmd ("sudo rm -rf " ++ f), Ev.warn ("  Failed to remove " ++ f)], ?_⟩
    simp [runCmd, hc, warnEv]

theorem rm_fold_ext (w : World) (l : List String) (s : Sys) :
    ∃ t, (l.foldl (rmFileStep w) s).evs = s.evs ++ t := by
  obtain ⟨t, ht, _⟩ := foldl_evs_ext (rmFileStep w) (fun _ => True)
    (fun s2 f => by
      obtain ⟨t, ht⟩ := rmFileStep_ext w s2 f
      exact ⟨t, ht, fun _ _ => trivial⟩) l s
  exact ⟨t, ht⟩

theorem restoreBinaryStep_ext (w : World) (s : Sys) (b : String) :
    ∃ t, (restoreBinaryStep w s b).evs = s.evs ++ t := by
  unfold restoreBinaryStep
  by_cases hfs : s.fs (bakPath b) = true
  · refine ⟨[Ev.access (bakPath b), Ev.mv (bakPath b) (origPath b),
      Ev.info ("  Restored " ++ b)], ?_⟩
    simp [hfs, infoEv, mvFile, accessEv]
  · simp only [Bool.not_eq_true] at hfs
    refine ⟨[Ev.access (bakPath b)], ?_⟩
    simp [hfs, accessEv]

theorem unmaskStep_ext (w : World) (s : Sys) (svc : String) :
    ∃ t, (unmaskStep w s svc).evs = s.evs ++ t := by
  unfold unmaskStep
  by_cases hc : w.codes s.k = 0
  · refine ⟨[Ev.cmd ("sudo systemctl unmask " ++ svc), Ev.info ("    Unmasked " ++ svc)], ?_⟩
    simp [runCmd, hc, infoEv]
  · refine ⟨[Ev.cmd ("sudo systemctl unmask " ++ svc)], ?_⟩
    simp [runCmd, hc]

theorem startServiceStep_ext (w : World) (s : Sys) (svc : String) :
    ∃ t, (startServiceStep w s svc).evs = s.evs ++ t := by
  unfold startServiceStep
  by_cases hc : w.codes s.k = 0
  · by_cases ha : w.codes (s.k + 1) = 0
    · refine ⟨[Ev.cmd ("sudo systemctl start " ++ svc),
        Ev.cmd ("sudo systemctl is-active " ++ svc),
        Ev.info ("    " ++ svc ++ " is active and running")], ?_⟩
      simp [runCmd, hc, ha, infoEv]
    · refine ⟨[Ev.cmd ("sudo systemctl start " ++ svc),
        Ev.cmd ("sudo systemctl is-active " ++ svc),
        Ev.warn ("    " ++ svc ++ " started but is not active - may not be installed")], ?_⟩
      simp [runCmd, hc, ha, warnEv]
  · refine ⟨[Ev.cmd ("sudo systemctl start " ++ svc),
      Ev.warn ("    Failed to start " ++ svc ++ " - may not be installed")], ?_⟩
    simp [runCmd, hc, warnEv]

theorem stopKubeSolo_ext (w : World) (s : Sys) :
    ∃ t, (stopKubeSolo w s).evs = s.evs ++ t ∧
      Ev.info "Stopping KubeSolo..." ∈ t := by
  unfold stopKubeSolo
  dsimp only [runCmd]
  by_cases h1 : w.codes (infoEv "Stopping KubeSolo..." s).k = 0
  · rw [if_pos h1]
    by_cases h2 : w.codes
        (infoEv "  Stopped KubeSolo service"
          (execIgnored w "sudo systemctl stop kubesolo"
            { infoEv "Stopping KubeSolo..." s with
              k := (infoEv "Stopping KubeSolo..." s).k + 1
              evs := (infoEv "Stopping KubeSolo..." s).evs ++ [Ev.cmd isActiveCmd] })).k = 0
    · rw [if_pos h2]
      obtain ⟨tF, htF⟩ := rm_fold_ext w filesToRemove _
      refine ⟨[Ev.info "Stopping KubeSolo...", Ev.cmd isActiveCmd,
        Ev.cmd "sudo systemctl stop kubesolo", Ev.info "  Stopped KubeSolo service",
        Ev.cmd "sudo systemctl is-enabled kubesolo",
        Ev.cmd "sudo systemctl disable kubesolo", Ev.info "  Disabled KubeSolo service",
        Ev.cmd "sudo systemctl kill --signal=SIGKILL kubesolo", Ev.sleep 2000] ++ tF ++
        [Ev.cmd "sudo systemctl daemon-reload"], ?_, ?_⟩
      · simp only [execIgnored, runCmd, infoEv, sleepEv]
        rw [htF]
        simp [infoEv, execIgnored, runCmd, sleepEv]
      · simp
    · rw [if_neg h2]
      obtain ⟨tF, htF⟩ := rm_fold_ext w filesToRemove _
      refine ⟨[Ev.info "Stopping KubeSolo...", Ev.cmd isActiveCmd,
        Ev.cmd "sudo systemctl stop kubesolo", Ev.info "  Stopped KubeSolo service",
        Ev.cmd "sudo systemctl is-enabled kubesolo",
        Ev.cmd "sudo systemctl kill --signal=SIGKILL kubesolo", Ev.sleep 2000] ++ tF ++
        [Ev.cmd "sudo systemctl daemon-reload"], ?_, ?_⟩
      · simp only [execIgnored, runCmd, infoEv, sleepEv]
        rw [htF]
        simp [infoEv, execIgnored, runCmd, sleepEv]
      · simp
  · rw [if_neg h1]
    by_cases h2 : w.codes
        ({ infoEv "Stopping KubeSolo..." s with
          k := (infoEv "Stopping KubeSolo..." s).k + 1
          evs := (infoEv "Stopping KubeSolo..." s).evs ++ [Ev.cmd isActiveCmd] }).k = 0
    · rw [if_pos h2]
      obtain ⟨tF, htF⟩ := rm_fold_ext w filesToRemove _
      refine ⟨[Ev.info "Stopping KubeSolo...", Ev.cmd isActiveCmd,
        Ev.cmd "sudo systemctl is-enabled kubesolo",
        Ev.cmd "sudo systemctl disable kubesolo", Ev.info "  Disabled KubeSolo service",
        Ev.cmd "sudo systemctl kill --signal=SIGKILL kubesolo", Ev.sleep 2000] ++ tF ++
        [Ev.cmd "sudo systemctl daemon-reload"], ?_, ?_⟩
      · simp only [execIgnored, runCmd, infoEv, sleepEv]
        rw [htF]
        simp [infoEv, execIgnored, runCmd, sleepEv]
      · simp
    · rw [if_neg h2]
      obtain ⟨tF, htF⟩ := rm_fold_ext w filesToRemove _
      refine ⟨[Ev.info "Stopping KubeSolo...", Ev.cmd isActiveCmd,
        Ev.cmd "sudo systemctl is-enabled kubesolo",
        Ev.cmd "sudo systemctl kill --signal=SIGKILL kubesolo", Ev.sleep 2000] ++ tF ++
        [Ev.cmd "sudo systemctl daemon-reload"], ?_, ?_⟩
      · simp only [execIgnored, runCmd, infoEv, sleepEv]
        rw [htF]
        simp [infoEv, execIgnored, runCmd, sleepEv]
      · simp

theorem restoreContainerRuntimes_ext (w : World) (s : Sys) :
    ∃ t, (restoreContainerRuntimes w s).evs = s.evs ++ t ∧
      Ev.info "Restoring container runtime binaries..." ∈ t := by
  unfold restoreContainerRuntimes
  obtain ⟨tB, htB, _⟩ := foldl_evs_ext (restoreBinaryStep w) (fun _ => True)
    (fun s2 b => by
      obtain ⟨t, ht⟩ := restoreBinaryStep_ext w s2 b
      exact ⟨t, ht, fun _ _ => trivial⟩)
    runtimeBinaries (infoEv "Restoring container runtime binaries..." s)
  refine ⟨Ev.info "Restoring container runtime binaries..." :: tB, ?_, ?_⟩
  · rw [htB, infoEv_evs]
    simp
  · simp

theorem restoreServices_ext (w : World) (s : Sys) :
    ∃ t, (restoreServices w s).evs = s.evs ++ t ∧
      Ev.info "Restoring container runtime services..." ∈ t := by
  unfold restoreServices
  obtain ⟨tU, htU, _⟩ := foldl_evs_ext (unmaskStep w) (fun _ => True)
    (fun s2 b => by
      obtain ⟨t, ht⟩ := unmaskStep_ext w s2 b
      exact ⟨t, ht, fun _ _ => trivial⟩)
    runtimeServices (infoEv "Restoring container runtime services..." s)
  obtain ⟨tS, htS, _⟩ := foldl_evs_ext (startServiceStep w) (fun _ => True)
    (fun s2 b => by
      obtain ⟨t, ht⟩ := startServiceStep_ext w s2 b
      exact ⟨t, ht, fun _ _ => trivial⟩)
    runtimeServices _
  refine ⟨Ev.info "Restoring container runtime services..." ::
    (tU ++ [Ev.cmd "sudo systemctl daemon-reload"] ++ tS ++
      [Ev.info "  Service restoration complete"]), ?_, ?_⟩
  · rw [infoEv_evs, htS]
    simp only [execIgnored, runCmd]
    rw [htU, infoEv_evs]
    simp
  · simp

/-! ### Poller lemmas -/

theorem iterEvs_no_diag (o : IterObs) : Ev.diagnostics ∉ (iterEvs o).1 := by
  unfold iterEvs
  by_cases h1 : o.isActiveCode = 0 <;> by_cases h2 : o.portCode = 0 <;>
    by_cases h3 : o.credOk = true <;> by_cases h4 : o.kubectlCode = 0 <;>
      by_cases h5 : o.readyCode = 0 <;>
        simp [h1, h2, h3, h4, h5]

theorem waitLoop_no_timeout (t : Nat) :
    ∀ (iters : List (Nat × IterObs)),
      (∀ p ∈ iters, p.1 ≤ t) → (waitLoop t iters).2 ≠ some timeoutMsg := by
  intro iters
  induction iters with
  | nil =>
    intro _ h
    rw [waitLoop] at h
    simp only [Option.some.injEq] at h
    exact absurd h (by decide)
  | cons p rest ih =>
    intro h
    obtain ⟨e, o⟩ := p
    have he : e ≤ t := h (e, o) (List.mem_cons_self _ _)
    rw [waitLoop, if_neg (by omega)]
    dsimp only
    by_cases hr : (iterEvs o).2 = true
    · simp [hr]
    · simp only [Bool.not_eq_true] at hr
      simp only [hr, Bool.false_eq_true, if_false]
      exact ih (fun q hq => h q (List.mem_cons_of_mem _ hq))

theorem waitLoop_timeout_diag (t : Nat) :
    ∀ (iters : List (Nat × IterObs)),
      (waitLoop t iters).2 = some timeoutMsg →
      (waitLoop t iters).1.count Ev.diagnostics = 1 := by
  intro iters
  induction iters with
  | nil =>
    intro h
    rw [waitLoop] at h
    simp only [Option.some.injEq] at h
    exact absurd h (by decide)
  | cons p rest ih =>
    intro h
    obtain ⟨e, o⟩ := p
    by_cases he : e > t
    · rw [waitLoop, if_pos he]
      decide
    · rw [waitLoop, if_neg he] at h ⊢
      dsimp only at h ⊢
      by_cases hr : (iterEvs o).2 = true
      · simp [hr] at h
      · simp only [Bool.not_eq_true] at hr
        simp only [hr, Bool.false_eq_true, if_false] at h ⊢
        have hcount := ih h
        simp only [List.count_append, List.count_cons]
        rw [hcount]
        have hno : (iterEvs o).1.count Ev.diagnostics = 0 :=
          List.count_eq_zero.mpr (iterEvs_no_diag o)
        rw [hno]
        simp

theorem iter_gate_ready (o : IterObs) :
    Ev.cmd kubectlNodeReadyCmd ∈ (iterEvs o).1 →
      o.kubectlCode = 0 ∧ Ev.cmd kubectlGetNodesCmd ∈ (iterEvs o).1 := by
  unfold iterEvs
  split_ifs <;>
    first
      | (intro hmem; exact absurd hmem (by decide))
      | (intro _; exact ⟨by assumption, by decide⟩)

theorem iter_gate_api (o : IterObs) :
    Ev.cmd kubectlGetNodesCmd ∈ (iterEvs o).1 →
      o.credOk = true ∧ Ev.access kubeconfigPath ∈ (iterEvs o).1 := by
  unfold iterEvs
  split_ifs <;>
    first
      | (intro hmem; exact absurd hmem (by decide))
      | (intro _; exact ⟨by assumption, by decide⟩)

theorem iter_gate_cred (o : IterObs) :
    Ev.access kubeconfigPath ∈ (iterEvs o).1 →
      o.portCode = 0 ∧ Ev.cmd portCmd ∈ (iterEvs o).1 := by
  unfold iterEvs
  split_ifs <;>
    first
      | (intro hmem; exact absurd hmem (by decide))
      | (intro _; exact ⟨by assumption, by decide⟩)

theorem iter_gate_port (o : IterObs) :
    Ev.cmd portCmd ∈ (iterEvs o).1 → o.isActiveCode = 0 := by
  unfold iterEvs
  split_ifs <;>
    first
      | (intro hmem; exact absurd hmem (by decide))
      | (intro _; assumption)

theorem iter_prefix (o : IterObs) :
    (iterEvs o).1 <+: (iterEvs ⟨0, 0, true, 0, 0⟩).1 := by
  unfold iterEvs
  split_ifs <;> first | decide | simp_all

/-! ### Claim theorems -/

/-- C1: `main` persists the `isPost=true` handoff state as its very first
effect, before any destructive command, and the post-run dispatch (modelled
from the spec, see `postEntry`) performs no operation at all when the flag is
absent from the state store, i.e. when setup never executed. -/
theorem c1_handoff_flag :
    (∀ (w : World) (version : String) (waitForReady : Bool) (timeout : Nat)
        (f0 : String → Bool),
      ((main w version waitForReady timeout (sysInit f0)).1.evs).head? =
        some (Ev.saveState "isPost" "true")) ∧
    (∀ (store : String → Option String) (w : World) (s : Sys),
      store "isPost" = none → postEntry store w s = Except.ok s) := by
  constructor
  · intro w version wfr timeout f0
    unfold main
    dsimp only
    obtain ⟨t1, ht1⟩ := disable_evs_ext w (saveStateEv "isPost" "true" (sysInit f0))
    obtain ⟨t2, ht2, _, _, _⟩ := install_shape w version
      (disableContainerRuntimes w (saveStateEv "isPost" "true" (sysInit f0)))
    rcases hinst : installKubeSolo w version
        (disableContainerRuntimes w (saveStateEv "isPost" "true" (sysInit f0)))
      with ⟨s3, e3⟩
    rw [hinst] at ht2
    simp only at ht2
    have hs3 : s3.evs.head? = some (Ev.saveState "isPost" "true") := by
      rw [ht2, ht1]
      simp [saveStateEv, sysInit]
    cases e3 with
    | some e => exact hs3
    | none =>
      by_cases hw : wfr
      · simp only [hw, if_true]
        obtain ⟨t3, ht3⟩ := wait_evs_ext w timeout s3
        rw [ht3]
        cases hevs : s3.evs with
        | nil =>
          rw [hevs] at hs3
          simp at hs3
        | cons x rest =>
          rw [hevs] at hs3
          simp only [List.head?_cons, Option.some.injEq] at hs3
          subst hs3
          simp
      · simp only [hw, if_false]
        exact hs3
  · intro store w s h
    unfold postEntry
    rw [h]
    simp

/-- C1 witness: with an empty state store the post entry is a no-op. -/
theorem c1_handoff_flag_witness :
    postEntry (fun _ => none) ⟨fun _ => 0, "", "", []⟩ (sysInit fun _ => false) =
      Except.ok (sysInit fun _ => false) :=
  c1_handoff_flag.2 (fun _ => none) ⟨fun _ => 0, "", "", []⟩ (sysInit fun _ => false) rfl

/-- C2: evaluating the code at the failing input.  When version is latest and
the remote lookup output is empty, the TypeScript `installKubeSolo` does NOT
fail: it attempts a download from the malformed URL built with the empty
version (and, whenever the external commands report success, even completes),
while the bash variant exits immediately with a resolution error and attempts
no download.  This contradicts the claim for the TypeScript variant. -/
theorem c2_empty_latest_resolution :
    (Ev.download (downloadUrl "" "amd64") ∈
        (installKubeSolo ⟨fun _ => 0, "", "x86_64", []⟩ "latest"
          (sysInit fun _ => false)).1.evs ∧
      (installKubeSolo ⟨fun _ => 0, "", "x86_64", []⟩ "latest"
          (sysInit fun _ => false)).2 = none) ∧
    setupShInstall "" "x86_64" "latest" =
      ([Ev.cmd shResolveCmd], some "Failed to resolve latest version from GitHub API") := by
  refine ⟨⟨by decide, by decide⟩, rfl⟩

/-- C3 counterexample: the TypeScript switch has no arm64 case, so the
identifier arm64 is not mapped to arm64 as the claim states; it falls to the
default branch and is treated as unsupported. -/
theorem c3_arm64_counterexample :
    ¬ binaryArchTS "arm64" = some "arm64" := by
  decide

/-- C3 (amended): the TypeScript `installKubeSolo` maps x86_64 to amd64,
aarch64 to arm64 and armv7l to arm and fails before attempting a download on
every other identifier, including arm64; the bash variant additionally maps
arm64 to arm64 and fails on everything outside its four identifiers. -/
theorem c3_architecture_mapping :
    (binaryArchTS "x86_64" = some "amd64" ∧ binaryArchTS "aarch64" = some "arm64" ∧
      binaryArchTS "armv7l" = some "arm" ∧ binaryArchTS "arm64" = none) ∧
    (∀ a, a ≠ "x86_64" → a ≠ "aarch64" → a ≠ "armv7l" → binaryArchTS a = none) ∧
    (binaryArchSh "x86_64" = some "amd64" ∧ binaryArchSh "aarch64" = some "arm64" ∧
      binaryArchSh "arm64" = some "arm64" ∧ binaryArchSh "armv7l" = some "arm") ∧
    (∀ a, a ≠ "x86_64" → a ≠ "aarch64" → a ≠ "arm64" → a ≠ "armv7l" →
      binaryArchSh a = none) ∧
    (∀ (w : World) (version : String) (s : Sys),
      binaryArchTS (trimStr w.unameOut) = none →
        (installKubeSolo w version s).2.isSome = true ∧
        ∀ u, Ev.download u ∈ (installKubeSolo w version s).1.evs →
          Ev.download u ∈ s.evs) := by
  refine ⟨by decide, ?_, by decide, ?_, ?_⟩
  · intro a h1 h2 h3
    simp [binaryArchTS, h1, h2, h3]
  · intro a h1 h2 h3 h4
    simp [binaryArchSh, h1, h2, h3, h4]
  · intro w version s hnone
    obtain ⟨t, ht, _, _, harchc⟩ := install_shape w version s
    obtain ⟨hsome, hnod⟩ := harchc hnone
    refine ⟨hsome, ?_⟩
    intro u hu
    rw [ht] at hu
    rcases List.mem_append.mp hu with h | h
    · exact h
    · exact absurd h (hnod u)

/-- C3 witness: an unlisted identifier is rejected by both variants, and a
run on a host reporting arm64 hard-fails in the TypeScript variant. -/
theorem c3_architecture_mapping_witness :
    binaryArchTS "mips" = none ∧ binaryArchSh "mips" = none ∧
    (installKubeSolo ⟨fun _ => 0, "", "arm64", []⟩ "v1.0.0"
      (sysInit fun _ => false)).2.isSome = true :=
  ⟨c3_architecture_mapping.2.1 "mips" (by decide) (by decide) (by decide),
   c3_architecture_mapping.2.2.2.1 "mips" (by decide) (by decide) (by decide) (by decide),
   (c3_architecture_mapping.2.2.2.2 ⟨fun _ => 0, "", "arm64", []⟩ "v1.0.0"
     (sysInit fun _ => false) (by decide)).1⟩

/-- C4: the readiness poller fails with the timeout error, dumping
diagnostics exactly once, precisely when the observed elapsed time strictly
exceeds the configured timeout; an iteration whose elapsed time equals the
timeout exactly does not fail and proceeds with the readiness checks. -/
theorem c4_timeout_boundary :
    ∀ (t e : Nat) (o : IterObs) (rest iters : List (Nat × IterObs)),
      (e > t → waitLoop t ((e, o) :: rest) = (diagnosticsEvs, some timeoutMsg) ∧
        diagnosticsEvs.count Ev.diagnostics = 1) ∧
      ((∀ p ∈ iters, p.1 ≤ t) → (waitLoop t iters).2 ≠ some timeoutMsg) ∧
      ((waitLoop t iters).2 = some timeoutMsg →
        (waitLoop t iters).1.count Ev.diagnostics = 1) ∧
      (e ≤ t → (iterEvs o).2 = true →
        waitLoop t ((e, o) :: rest) = ((iterEvs o).1, none)) ∧
      (e ≤ t → (iterEvs o).2 = false →
        (waitLoop t ((e, o) :: rest)).2 = (waitLoop t rest).2) := by
  intro t e o rest iters
  refine ⟨?_, waitLoop_no_timeout t iters, waitLoop_timeout_diag t iters, ?_, ?_⟩
  · intro hgt
    rw [waitLoop, if_pos hgt]
    exact ⟨rfl, by decide⟩
  · intro hle hready
    rw [waitLoop, if_neg (by omega)]
    dsimp only
    simp [hready]
  · intro hle hnotready
    rw [waitLoop, if_neg (by omega)]
    dsimp only
    simp [hnotready]

/-- C4 witness: at timeout 10, an iteration at elapsed 11 fails with one
diagnostics dump, and an iteration at exactly elapsed 10 does not fail. -/
theorem c4_timeout_boundary_witness :
    (waitLoop 10 [(11, ⟨1, 0, true, 0, 0⟩)] = (diagnosticsEvs, some timeoutMsg) ∧
      diagnosticsEvs.count Ev.diagnostics = 1) ∧
    (waitLoop 10 ((10, ⟨0, 0, true, 0, 0⟩) :: []) =
      ((iterEvs ⟨0, 0, true, 0, 0⟩).1, none)) :=
  ⟨(c4_timeout_boundary 10 11 ⟨1, 0, true, 0, 0⟩ [] []).1 (by decide),
   (c4_timeout_boundary 10 10 ⟨0, 0, true, 0, 0⟩ [] []).2.2.2.1 (by decide) (by decide)⟩

/-- C5: within one poller iteration the five stages are strictly gated: the
node-ready check is only evaluated after the kubectl connectivity check
succeeded, which is only evaluated once the credential file was accessible,
which is only probed once the port check succeeded, which in turn requires
the service-active check to have succeeded; and the evaluated checks always
form a prefix of the full canonical stage order, so a failing early stage
short-circuits all later stages for that iteration. -/
theorem c5_readiness_gating :
    ∀ o : IterObs,
      (Ev.cmd kubectlNodeReadyCmd ∈ (iterEvs o).1 →
        o.kubectlCode = 0 ∧ Ev.cmd kubectlGetNodesCmd ∈ (iterEvs o).1) ∧
      (Ev.cmd kubectlGetNodesCmd ∈ (iterEvs o).1 →
        o.credOk = true ∧ Ev.access kubeconfigPath ∈ (iterEvs o).1) ∧
      (Ev.access kubeconfigPath ∈ (iterEvs o).1 →
        o.portCode = 0 ∧ Ev.cmd portCmd ∈ (iterEvs o).1) ∧
      (Ev.cmd portCmd ∈ (iterEvs o).1 → o.isActiveCode = 0) ∧
      (iterEvs o).1 <+: (iterEvs ⟨0, 0, true, 0, 0⟩).1 :=
  fun o => ⟨iter_gate_ready o, iter_gate_api o, iter_gate_cred o,
    iter_gate_port o, iter_prefix o⟩

/-- C5 witness: in a fully successful iteration the node-ready check did run,
so the gating hypotheses are all satisfiable. -/
theorem c5_readiness_gating_witness :
    (⟨0, 0, true, 0, 0⟩ : IterObs).kubectlCode = 0 ∧
      Ev.cmd kubectlGetNodesCmd ∈ (iterEvs ⟨0, 0, true, 0, 0⟩).1 :=
  (c5_readiness_gating ⟨0, 0, true, 0, 0⟩).1 (by decide)

/-- C6: cleanup never produces a hard error for any pattern of command exit
codes or filesystem contents: it always returns `Except.ok`, each of the
three operations (stop and remove the service, restore binaries, restart
services) is individually reached and leaves its banner in the trace, and a
failed file removal is demoted to a warning event. -/
theorem c6_cleanup_best_effort :
    ∀ (w : World) (s : Sys),
      cleanup w s = Except.ok (infoEv "✓ System state restored" (cleanupBody w s)) ∧
      Ev.info "Stopping KubeSolo..." ∈ (cleanupBody w s).evs ∧
      Ev.info "Restoring container runtime binaries..." ∈ (cleanupBody w s).evs ∧
      Ev.info "Restoring container runtime services..." ∈ (cleanupBody w s).evs ∧
      (∀ (s2 : Sys) (file : String), w.codes s2.k ≠ 0 →
        Ev.warn ("  Failed to remove " ++ file) ∈ (rmFileStep w s2 file).evs) := by
  intro w s
  obtain ⟨t1, ht1, hm1⟩ := stopKubeSolo_ext w (infoEv "Starting cleanup..." s)
  obtain ⟨t2, ht2, hm2⟩ := restoreContainerRuntimes_ext w
    (stopKubeSolo w (infoEv "Starting cleanup..." s))
  obtain ⟨t3, ht3, hm3⟩ := restoreServices_ext w
    (restoreContainerRuntimes w (stopKubeSolo w (infoEv "Starting cleanup..." s)))
  have hevs : (cleanupBody w s).evs =
      (((s.evs ++ [Ev.info "Starting cleanup..."]) ++ t1) ++ t2) ++ t3 := by
    unfold cleanupBody
    rw [ht3, ht2, ht1, infoEv_evs]
  refine ⟨rfl, ?_, ?_, ?_, ?_⟩
  · rw [hevs]
    exact List.mem_append.mpr (Or.inl (List.mem_append.mpr (Or.inl
      (List.mem_append.mpr (Or.inr hm1)))))
  · rw [hevs]
    exact List.mem_append.mpr (Or.inl (List.mem_append.mpr (Or.inr hm2)))
  · rw [hevs]
    exact List.mem_append.mpr (Or.inr hm3)
  · intro s2 file hc
    unfold rmFileStep
    simp only [runCmd]
    rw [if_neg hc]
    simp [warnEv]

/-- C6 witness: a removal failure surfaces as a warning event. -/
theorem c6_cleanup_best_effort_witness :
    Ev.warn ("  Failed to remove " ++ "/opt/cni") ∈
      (rmFileStep ⟨fun _ => 1, "", "", []⟩ (sysInit fun _ => false) "/opt/cni").evs :=
  (c6_cleanup_best_effort ⟨fun _ => 1, "", "", []⟩
    (sysInit fun _ => false)).2.2.2.2 (sysInit fun _ => false) "/opt/cni" (by decide)

/-- C7: for every filesystem state, running the backup pass a second time
leaves the filesystem untouched and performs no rename (each binary whose
original path is gone is skipped by the caught access probe), and running the
restore pass a second time after a first restore is a no-op on the
filesystem with no rename performed. -/
theorem c7_backup_restore_idempotent :
    ∀ (w w2 : World) (s : Sys),
      ((disableContainerRuntimes w2 (disableContainerRuntimes w s)).fs =
          (disableContainerRuntimes w s).fs ∧
        ∃ t, (disableContainerRuntimes w2 (disableContainerRuntimes w s)).evs =
            (disableContainerRuntimes w s).evs ++ t ∧
          ∀ src dst, Ev.mv src dst ∉ t) ∧
      ((restoreContainerRuntimes w2 (restoreContainerRuntimes w s)).fs =
          (restoreContainerRuntimes w s).fs ∧
        ∃ t, (restoreContainerRuntimes w2 (restoreContainerRuntimes w s)).evs =
            (restoreContainerRuntimes w s).evs ++ t ∧
          ∀ src dst, Ev.mv src dst ∉ t) :=
  fun w w2 s => ⟨disable_disable w w2 s, restore_restore w w2 s⟩

/-- C7 witness: concrete double runs leave the filesystem unchanged. -/
theorem c7_backup_restore_idempotent_witness :
    (disableContainerRuntimes ⟨fun _ => 0, "", "", []⟩
        (disableContainerRuntimes ⟨fun _ => 0, "", "", []⟩
          (sysInit fun p => p == "/usr/bin/docker"))).fs =
      (disableContainerRuntimes ⟨fun _ => 0, "", "", []⟩
        (sysInit fun p => p == "/usr/bin/docker")).fs ∧
    (restoreContainerRuntimes ⟨fun _ => 0, "", "", []⟩
        (restoreContainerRuntimes ⟨fun _ => 0, "", "", []⟩
          (sysInit fun p => p == "/usr/bin/docker.bak"))).fs =
      (restoreContainerRuntimes ⟨fun _ => 0, "", "", []⟩
        (sysInit fun p => p == "/usr/bin/docker.bak")).fs :=
  ⟨(c7_backup_restore_idempotent ⟨fun _ => 0, "", "", []⟩ ⟨fun _ => 0, "", "", []⟩
      (sysInit fun p => p == "/usr/bin/docker")).1.1,
   (c7_backup_restore_idempotent ⟨fun _ => 0, "", "", []⟩ ⟨fun _ => 0, "", "", []⟩
      (sysInit fun p => p == "/usr/bin/docker.bak")).2.1⟩

/-- C8: setup followed by cleanup round-trips every known runtime binary:
when the binary exists at its original /usr/bin path before the backup pass,
then after backup and restore it exists at the original path again and the
.bak path is gone. -/
theorem c8_backup_restore_roundtrip :
    ∀ (w w2 : World) (s : Sys) (b : String), b ∈ runtimeBinaries →
      s.fs (origPath b) = true →
      (restoreContainerRuntimes w2 (disableContainerRuntimes w s)).fs (origPath b) = true ∧
      (restoreContainerRuntimes w2 (disableContainerRuntimes w s)).fs (bakPath b) = false := by
  intro w w2 s b hb hfs
  exact ⟨restore_fs_orig_true w2 _ b hb (disable_fs_bak_true w s b hb hfs),
    restore_fs_bak_false w2 _ b hb⟩

/-- C8 witness: the docker binary survives a concrete backup+restore. -/
theorem c8_backup_restore_roundtrip_witness :
    (restoreContainerRuntimes ⟨fun _ => 0, "", "", []⟩
      (disableContainerRuntimes ⟨fun _ => 0, "", "", []⟩
        (sysInit fun p => p == "/usr/bin/docker"))).fs (origPath "docker") = true ∧
    (restoreContainerRuntimes ⟨fun _ => 0, "", "", []⟩
      (disableContainerRuntimes ⟨fun _ => 0, "", "", []⟩
        (sysInit fun p => p == "/usr/bin/docker"))).fs (bakPath "docker") = false :=
  c8_backup_restore_roundtrip ⟨fun _ => 0, "", "", []⟩ ⟨fun _ => 0, "", "", []⟩
    (sysInit fun p => p == "/usr/bin/docker") "docker" (by decide) (by decide)

/-- C9: for every known runtime binary, at most one of the original path and
the backup path exists after the backup pass and after the restore pass
(unconditionally), and each individual backup or restore step preserves the
at-most-one invariant of every pair. -/
theorem c9_backed_up_binary_invariant :
    ∀ (w : World) (s : Sys) (b : String), b ∈ runtimeBinaries →
      (¬((disableContainerRuntimes w s).fs (origPath b) = true ∧
         (disableContainerRuntimes w s).fs (bakPath b) = true)) ∧
      (¬((restoreContainerRuntimes w s).fs (origPath b) = true ∧
         (restoreContainerRuntimes w s).fs (bakPath b) = true)) ∧
      (∀ c ∈ runtimeBinaries,
        ¬(s.fs (origPath b) = true ∧ s.fs (bakPath b) = true) →
        ¬((backupBinaryStep w s c).fs (origPath b) = true ∧
          (backupBinaryStep w s c).fs (bakPath b) = true) ∧
        ¬((restoreBinaryStep w s c).fs (origPath b) = true ∧
          (restoreBinaryStep w s c).fs (bakPath b) = true)) := by
  intro w s b hb
  refine ⟨?_, ?_, ?_⟩
  · intro ⟨ho, _⟩
    rw [disable_fs_orig_false w s b hb] at ho
    cases ho
  · intro ⟨_, hk⟩
    rw [restore_fs_bak_false w s b hb] at hk
    cases hk
  · intro c hc hinv
    by_cases hbc : b = c
    · subst hbc
      constructor
      · intro ⟨ho, _⟩
        rw [backupBinaryStep_fs_orig w s b (binaries_self_ne b hb)] at ho
        cases ho
      · intro ⟨_, hk⟩
        rw [restoreBinaryStep_fs_bak w s b (binaries_self_ne b hb)] at hk
        cases hk
    · obtain ⟨h1, h2, h3, h4⟩ := binaries_cross_ne b hb c hc hbc
      constructor
      · rw [backupBinaryStep_fs_other w s c (origPath b) h1 h2,
          backupBinaryStep_fs_other w s c (bakPath b) h3 h4]
        exact hinv
      · rw [restoreBinaryStep_fs_other w s c (origPath b) h1 h2,
          restoreBinaryStep_fs_other w s c (bakPath b) h3 h4]
        exact hinv

/-- C9 witness: the invariant facts at a concrete binary and state. -/
theorem c9_backed_up_binary_invariant_witness :
    ¬((backupBinaryStep ⟨fun _ => 0, "", "", []⟩
        (sysInit fun p => p == "/usr/bin/docker") "docker").fs (origPath "docker") = true ∧
      (backupBinaryStep ⟨fun _ => 0, "", "", []⟩
        (sysInit fun p => p == "/usr/bin/docker") "docker").fs (bakPath "docker") = true) :=
  ((c9_backed_up_binary_invariant ⟨fun _ => 0, "", "", []⟩
      (sysInit fun p => p == "/usr/bin/docker") "docker" (by decide)).2.2 "docker"
    (by decide) (by decide)).1

/-- C10: the installer publishes the fixed kubeconfig path as the action
output and as the KUBECONFIG export without ever probing the filesystem for
it (the chmod 644 ignores its exit code and no fs.access occurs), and with
wait-for-ready disabled a concrete run on a filesystem with no kubeconfig at
all still completes successfully with the outputs published, even when the
chmod itself fails. -/
theorem c10_publish_without_verify :
    (∀ (w : World) (version : String) (s s2 : Sys) (err : Option String),
      installKubeSolo w version s = (s2, err) →
      (∀ p, Ev.access p ∈ s2.evs → Ev.access p ∈ s.evs) ∧
      (err = none →
        Ev.output "kubeconfig" kubeconfigPath ∈ s2.evs ∧
        Ev.exportVar "KUBECONFIG" kubeconfigPath ∈ s2.evs)) ∧
    ((main ⟨fun k => if k = 20 then 77 else 0, "", "x86_64", []⟩ "v1.2.3" false 60
        (sysInit fun _ => false)).2 = none ∧
      Ev.output "kubeconfig" kubeconfigPath ∈
        (main ⟨fun k => if k = 20 then 77 else 0, "", "x86_64", []⟩ "v1.2.3" false 60
          (sysInit fun _ => false)).1.evs ∧
      Ev.exportVar "KUBECONFIG" kubeconfigPath ∈
        (main ⟨fun k => if k = 20 then 77 else 0, "", "x86_64", []⟩ "v1.2.3" false 60
          (sysInit fun _ => false)).1.evs ∧
      (main ⟨fun k => if k = 20 then 77 else 0, "", "x86_64", []⟩ "v1.2.3" false 60
        (sysInit fun _ => false)).1.fs kubeconfigPath = false) := by
  constructor
  · intro w version s s2 err hinst
    obtain ⟨t, ht, hacc, hsucc, _⟩ := install_shape w version s
    rw [hinst] at ht hsucc
    simp only at ht hsucc
    constructor
    · intro p hp
      rw [ht] at hp
      rcases List.mem_append.mp hp with h | h
      · exact h
      · exact absurd rfl (hacc _ h p)
    · intro herr
      subst herr
      obtain ⟨ho, he⟩ := hsucc rfl
      rw [ht]
      exact ⟨List.mem_append.mpr (Or.inr ho), List.mem_append.mpr (Or.inr he)⟩
  · refine ⟨by decide, by decide, by decide, by decide⟩

/-- C10 witness: a concrete successful install publishes both outputs and
performs no filesystem probe. -/
theorem c10_publish_without_verify_witness :
    Ev.output "kubeconfig" kubeconfigPath ∈
      (installKubeSolo ⟨fun _ => 0, "", "x86_64", []⟩ "v1.2.3"
        (sysInit fun _ => false)).1.evs ∧
    Ev.exportVar "KUBECONFIG" kubeconfigPath ∈
      (installKubeSolo ⟨fun _ => 0, "", "x86_64", []⟩ "v1.2.3"
        (sysInit fun _ => false)).1.evs :=
  (c10_publish_without_verify.1 ⟨fun _ => 0, "", "x86_64", []⟩ "v1.2.3"
    (sysInit fun _ => false)
    (installKubeSolo ⟨fun _ => 0, "", "x86_64", []⟩ "v1.2.3"
      (sysInit fun _ => false)).1
    (installKubeSolo ⟨fun _ => 0, "", "x86_64", []⟩ "v1.2.3"
      (sysInit fun _ => false)).2 rfl).2 (by decide)

end SetupKubesolo
